import Mathlib

/-!
Verification development for the crawling / screenshot-capture core of the
AI_WebSystemAnalyzer repository.

The definitions below are a shallow embedding of:
  * `src/utils/helpers.py`   — `normalize_url`, `get_url_hash`, `get_safe_filename`,
    together with the fragment of Python's `urllib.parse` they call
    (`urlparse`, `parse_qsl`, `urlencode`, `urlunparse`);
  * `src/crawler/screenshot.py` — `ScreenshotTaker` (`_scroll_page`,
    `_capture_full_page_screenshot`, `take_screenshot`);
  * `src/crawler/crawler.py` — `WebCrawler` (`should_visit`, `extract_links`,
    `process_page`, `crawl`, `_process_page`, `_extract_links`).

Python exceptions are modelled with `Except String`; the browser, the clock and
the file system are modelled as explicit environment records of functions.
-/

/-! ## Character-list utilities mirroring Python `str` methods -/

/-- Python `s.find(c)`: index of the first occurrence of `c`, or `none`. -/
def strFind : List Char → Char → Option Nat
  | [], _ => none
  | x :: xs, c => if x = c then some 0 else (strFind xs c).map (· + 1)

/-- Python `s.rfind(c)`: index of the last occurrence of `c`, or `none`. -/
def strRFind (cs : List Char) (c : Char) : Option Nat :=
  match strFind cs.reverse c with
  | some i => some (cs.length - 1 - i)
  | none => none

/-- Python `s.find(c, start)`: first occurrence at index `≥ start`, or `none`. -/
def strFindFrom (cs : List Char) (c : Char) (start : Nat) : Option Nat :=
  (strFind (cs.drop start) c).map (· + start)

/-- Python `s.split(c, 1)` when `c` occurs: the parts before and after the first
occurrence of `c`; `none` when `c` does not occur. -/
def splitOnce (cs : List Char) (c : Char) : Option (List Char × List Char) :=
  match strFind cs c with
  | some i => some (cs.take i, cs.drop (i + 1))
  | none => none

/-- Helper for Python `s.split(sep)`: splits at every separator, keeping empty
fields (so `"".split(sep) = [""]`). -/
def splitSepAux (sep : Char) : List Char → List Char → List (List Char)
  | [], acc => [acc.reverse]
  | c :: cs, acc =>
    if c = sep then acc.reverse :: splitSepAux sep cs []
    else splitSepAux sep cs (c :: acc)

/-- Python `s.split(sep)` for a one-character separator. -/
def splitSep (cs : List Char) (sep : Char) : List (List Char) :=
  splitSepAux sep cs []

/-! ## UTF-8 and percent-coding (the fragment of `urllib.parse.quote_plus` /
`unquote` used by `urlencode` and `parse_qsl`) -/

/-- UTF-8 bytes (as `Nat`s) of one character. -/
def utf8Bytes (c : Char) : List Nat :=
  let n := c.toNat
  if n < 0x80 then [n]
  else if n < 0x800 then
    [0xC0 + n / 64, 0x80 + n % 64]
  else if n < 0x10000 then
    [0xE0 + n / 4096, 0x80 + (n / 64) % 64, 0x80 + n % 64]
  else
    [0xF0 + n / 262144, 0x80 + (n / 4096) % 64, 0x80 + (n / 64) % 64, 0x80 + n % 64]

/-- Uppercase hexadecimal digit, as produced by `urllib.parse.quote`. -/
def hexDigit (n : Nat) : Char :=
  if n < 10 then Char.ofNat (48 + n)
  else Char.ofNat (55 + n)

/-- Value of a hexadecimal digit character (either case), or `none`. -/
def hexVal (c : Char) : Option Nat :=
  if '0' ≤ c ∧ c ≤ '9' then some (c.toNat - 48)
  else if 'A' ≤ c ∧ c ≤ 'F' then some (c.toNat - 55)
  else if 'a' ≤ c ∧ c ≤ 'f' then some (c.toNat - 87)
  else none

/-- Percent-decoding to a byte sequence: `%XY` with two hex digits becomes one
byte, every other character contributes its UTF-8 bytes (as in
`urllib.parse.unquote`, which leaves ill-formed escapes literal). -/
def percentDecodeBytes : List Char → List Nat
  | [] => []
  | '%' :: a :: b :: rest =>
    match hexVal a, hexVal b with
    | some x, some y => (16 * x + y) :: percentDecodeBytes rest
    | _, _ => utf8Bytes '%' ++ percentDecodeBytes (a :: b :: rest)
  | c :: rest => utf8Bytes c ++ percentDecodeBytes rest

/-- UTF-8 decoding of a byte sequence, replacing malformed input by U+FFFD
(Python's `errors='replace'`, modelled with a per-byte replacement policy). -/
def utf8Decode : List Nat → List Char
  | [] => []
  | b :: rest =>
    if b < 0x80 then
      Char.ofNat b :: utf8Decode rest
    else if 0xC2 ≤ b ∧ b ≤ 0xDF then
      match rest with
      | c :: rest' =>
        if 0x80 ≤ c ∧ c ≤ 0xBF then
          Char.ofNat ((b - 0xC0) * 64 + (c - 0x80)) :: utf8Decode rest'
        else '�' :: utf8Decode (c :: rest')
      | [] => ['�']
    else if 0xE0 ≤ b ∧ b ≤ 0xEF then
      match rest with
      | c :: d :: rest' =>
        if (0x80 ≤ c ∧ c ≤ 0xBF) ∧ (0x80 ≤ d ∧ d ≤ 0xBF) then
          let n := (b - 0xE0) * 4096 + (c - 0x80) * 64 + (d - 0x80)
          (if n < 0xD800 ∨ 0xDFFF < n then Char.ofNat n else '�') :: utf8Decode rest'
        else '�' :: utf8Decode (c :: d :: rest')
      | _ => ['�']
    else if 0xF0 ≤ b ∧ b ≤ 0xF4 then
      match rest with
      | c :: d :: e :: rest' =>
        if (0x80 ≤ c ∧ c ≤ 0xBF) ∧ (0x80 ≤ d ∧ d ≤ 0xBF) ∧ (0x80 ≤ e ∧ e ≤ 0xBF) then
          let n := (b - 0xF0) * 262144 + (c - 0x80) * 4096 + (d - 0x80) * 64 + (e - 0x80)
          (if n < 0x110000 then Char.ofNat n else '�') :: utf8Decode rest'
        else '�' :: utf8Decode (c :: d :: e :: rest')
      | _ => ['�']
    else '�' :: utf8Decode rest

/-- `urllib.parse.unquote`: percent-decode, then UTF-8-decode. -/
def unquote (cs : List Char) : List Char :=
  utf8Decode (percentDecodeBytes cs)

/-- `urllib.parse.unquote_plus`: `'+'` becomes a space, then `unquote`. -/
def unquote_plus (cs : List Char) : List Char :=
  unquote (cs.map (fun c => if c = '+' then ' ' else c))

/-- The characters `urllib.parse.quote` never encodes (letters, digits,
`_ . - ~`). -/
def alwaysSafe (c : Char) : Bool :=
  c.isAlpha || c.isDigit || c = '_' || c = '.' || c = '-' || c = '~'

/-- `urllib.parse.quote_plus` with `safe=''`: safe characters kept, space
becomes `'+'`, everything else percent-encoded byte-wise in uppercase hex. -/
def quote_plus (cs : List Char) : List Char :=
  cs.foldr (fun c acc =>
    if alwaysSafe c then c :: acc
    else if c = ' ' then '+' :: acc
    else (utf8Bytes c).foldr (fun b acc2 => '%' :: hexDigit (b / 16) :: hexDigit (b % 16) :: acc2) acc) []

/-! ## `urllib.parse.urlparse` and friends -/

/-- Result of `urllib.parse.urlparse`. -/
structure ParseResult where
  scheme : String
  netloc : String
  path : String
  params : String
  query : String
  fragment : String
deriving DecidableEq, Repr

/-- A character of `urllib.parse.scheme_chars`. -/
def isSchemeChar (c : Char) : Bool :=
  c.isAlpha || c.isDigit || c = '+' || c = '-' || c = '.'

/-- `urllib.parse._splitnetloc` (from offset 2): the network location runs until
the first of `'/'`, `'?'` or `'#'`. -/
def splitnetloc (cs : List Char) : List Char × List Char :=
  (cs.takeWhile (fun c => ¬ (c = '/' ∨ c = '?' ∨ c = '#')),
   cs.dropWhile (fun c => ¬ (c = '/' ∨ c = '?' ∨ c = '#')))

/-- Result of `urllib.parse.urlsplit`. -/
structure SplitResult where
  scheme : String
  netloc : String
  path : String
  query : String
  fragment : String
deriving DecidableEq, Repr

/-- `urllib.parse.urlsplit` (control-character stripping elided: no input in
scope contains control characters or whitespace). -/
def urlsplit (url : String) : SplitResult :=
  let cs := url.data
  let p1 : List Char × List Char :=
    match strFind cs ':' with
    | some i =>
      if 0 < i ∧ (cs.headD '0').isAlpha ∧ (cs.take i).all isSchemeChar then
        ((cs.take i).map Char.toLower, cs.drop (i + 1))
      else ([], cs)
    | none => ([], cs)
  let scheme := p1.1
  let rest0 := p1.2
  let p2 : List Char × List Char :=
    if rest0.take 2 = ['/', '/'] then splitnetloc (rest0.drop 2)
    else ([], rest0)
  let netloc := p2.1
  let rest1 := p2.2
  let p3 : List Char × List Char :=
    match splitOnce rest1 '#' with
    | some pr => pr
    | none => (rest1, [])
  let rest2 := p3.1
  let fragment := p3.2
  let p4 : List Char × List Char :=
    match splitOnce rest2 '?' with
    | some pr => pr
    | none => (rest2, [])
  ⟨⟨scheme⟩, ⟨netloc⟩, ⟨p4.1⟩, ⟨p4.2⟩, ⟨fragment⟩⟩

/-- `urllib.parse._splitparams`: split the parameters off the last path
segment (at the first `';'` after the last `'/'`). -/
def splitparams (cs : List Char) : List Char × List Char :=
  match strRFind cs '/' with
  | some r =>
    match strFindFrom cs ';' r with
    | some i => (cs.take i, cs.drop (i + 1))
    | none => (cs, [])
  | none =>
    match strFind cs ';' with
    | some i => (cs.take i, cs.drop (i + 1))
    | none => (cs, [])

/-- `urllib.parse.urlparse`. -/
def urlparse (url : String) : ParseResult :=
  let s := urlsplit url
  let pp : List Char × List Char :=
    if s.path.data.contains ';' then splitparams s.path.data
    else (s.path.data, [])
  ⟨s.scheme, s.netloc, ⟨pp.1⟩, ⟨pp.2⟩, s.query, s.fragment⟩

/-- `urllib.parse.urlunsplit`. -/
def urlunsplit (scheme netloc path query fragment : String) : String :=
  let url := path.data
  let url :=
    if netloc ≠ "" ∨ (url ≠ [] ∧ url.take 2 = ['/', '/']) then
      let url := if url ≠ [] ∧ url.headD '/' ≠ '/' then '/' :: url else url
      '/' :: '/' :: (netloc.data ++ url)
    else url
  let url := if scheme ≠ "" then scheme.data ++ ':' :: url else url
  let url := if query ≠ "" then url ++ '?' :: query.data else url
  let url := if fragment ≠ "" then url ++ '#' :: fragment.data else url
  ⟨url⟩

/-- `urllib.parse.urlunparse`: parameters are re-attached to the path with
`';'` when non-empty, then `urlunsplit`. -/
def urlunparse (p : ParseResult) : String :=
  let path := if p.params ≠ "" then p.path ++ ";" ++ p.params else p.path
  urlunsplit p.scheme p.netloc path p.query p.fragment

/-- `urllib.parse.parse_qsl` with default arguments: split on `'&'`, skip empty
fields, skip fields without `'='` and fields with an empty value
(`keep_blank_values=False`), and `unquote_plus` names and values. -/
def parse_qsl (qs : String) : List (String × String) :=
  (splitSep qs.data '&').foldr (fun nv acc =>
    if nv = [] then acc
    else match splitOnce nv '=' with
      | none => acc
      | some pr =>
        if pr.2 = [] then acc
        else ((⟨unquote_plus pr.1⟩ : String), (⟨unquote_plus pr.2⟩ : String)) :: acc) []

/-- `urllib.parse.urlencode` on a list of pairs, with the default
`quote_via=quote_plus`. -/
def urlencode (pairs : List (String × String)) : String :=
  ⟨List.intercalate ['&']
    (pairs.map (fun kv => quote_plus kv.1.data ++ '=' :: quote_plus kv.2.data))⟩

/-! ## Python `sorted` on pairs of strings -/

/-- Strict lexicographic comparison of character lists by code point, as Python
compares `str` values. -/
def charlistLt : List Char → List Char → Bool
  | [], [] => false
  | [], _ :: _ => true
  | _ :: _, [] => false
  | a :: as, b :: bs =>
    if a.toNat < b.toNat then true
    else if a.toNat = b.toNat then charlistLt as bs
    else false

/-- Python `≤` on pairs `(str, str)` (tuple comparison: first component, then
second). -/
def pairLe (x y : String × String) : Bool :=
  charlistLt x.1.data y.1.data ||
    (x.1 = y.1 && (charlistLt x.2.data y.2.data || x.2 = y.2))

/-- Insert into a sorted list (insertion sort step). -/
def insertPair (x : String × String) : List (String × String) → List (String × String)
  | [] => [x]
  | y :: ys => if pairLe x y then x :: y :: ys else y :: insertPair x ys

/-- Python `sorted` on a list of string pairs (sorting by the whole tuple, so
stability cannot affect the result). -/
def pysorted (l : List (String × String)) : List (String × String) :=
  l.foldr insertPair []

/-! ## `src/utils/helpers.py` -/

/-- Python `s.endswith('/')`: the last character is a slash. -/
def endsWithSlash (s : String) : Bool :=
  s.data.getLast? = some '/'

/-- `normalize_url` from `src/utils/helpers.py`: sort the query parameters,
drop the fragment, and strip one trailing `'/'` from the re-assembled URL. -/
def normalize_url (url : String) : String :=
  let parsed := urlparse url
  let query_params := parse_qsl parsed.query
  let sorted_query := urlencode (pysorted query_params)
  let normalized := urlunparse ⟨parsed.scheme, parsed.netloc, parsed.path, parsed.params, sorted_query, ""⟩
  if endsWithSlash normalized then ⟨normalized.data.dropLast⟩ else normalized

/-- `hashlib.md5(...).hexdigest()` is an external library call; it is modelled
by an injective encoding. No claim depends on the digest's value. -/
def md5_hexdigest (s : String) : String := "md5-" ++ s

/-- `get_url_hash` from `src/utils/helpers.py`. -/
def get_url_hash (url : String) : String :=
  md5_hexdigest (normalize_url url)

/-- `os.path.basename` for POSIX paths: the part after the last `'/'`. -/
def basename (path : String) : String :=
  match strRFind path.data '/' with
  | some i => ⟨path.data.drop (i + 1)⟩
  | none => path

/-- `os.path.splitext`: split off the extension at the last `'.'`, unless every
character before it is a `'.'`. -/
def splitext (name : List Char) : List Char × List Char :=
  match strRFind name '.' with
  | some i =>
    if (name.take i).all (· = '.') then (name, [])
    else (name.take i, name.drop i)
  | none => (name, [])

/-- `get_safe_filename` from `src/utils/helpers.py` (the `re.sub(r'[^\w\-\.]', '_', ...)`
word-character class is modelled over ASCII). -/
def get_safe_filename (url : String) : String :=
  let url_hash := get_url_hash url
  let path := (urlparse url).path
  let filename := basename path
  let filename := if filename = "" then "index.html" else filename
  let filename := if ¬ filename.data.contains '.' then filename ++ ".html" else filename
  let be := splitext filename.data
  let safe : List Char := be.1 ++ '_' :: (url_hash.data.take 8) ++ be.2
  ⟨safe.map (fun c => if c.isAlphanum || c = '_' || c = '-' || c = '.' then c else '_')⟩

/-- `os.path.join` for a relative second component. -/
def path_join (a b : String) : String := a ++ "/" ++ b

/-! ## `src/crawler/screenshot.py` — `ScreenshotTaker`

The browser is modelled by explicit environments.  Fueled recursion stands in
for the Python `while` loops; the fuel passed by the wrappers below is at
least the loop's actual iteration count whenever the viewport dimensions are
positive integers, so the truncation case is never reached there. -/

/-- One tile `(left, top_height, viewport_width, viewport_height)` appended to
`rectangles` in `_capture_full_page_screenshot`. -/
structure Tile where
  left : Int
  top : Int
  width : Int
  height : Int
deriving DecidableEq, Repr

/-- The inner `while j < total_width` loop of `_capture_full_page_screenshot`:
one row of tile origins.  The vertical origin is clamped
(`top_height = total_height - viewport_height` when `i + viewport_height >
total_height`); the horizontal origin `j` is used as-is. -/
def innerTiles (tw vw vh th i : Int) : Nat → Int → List Tile
  | 0, _ => []
  | fuel + 1, j =>
    if j < tw then
      let top_height := if i + vh > th then th - vh else i
      ⟨j, top_height, vw, vh⟩ :: innerTiles tw vw vh th i fuel (j + vw)
    else []

/-- The outer `while i < total_height` loop of `_capture_full_page_screenshot`. -/
def outerTiles (tw vw vh th : Int) : Nat → Int → List Tile
  | 0, _ => []
  | fuel + 1, i =>
    if i < th then
      innerTiles tw vw vh th i (tw.toNat + 1) 0 ++ outerTiles tw vw vh th fuel (i + vh)
    else []

/-- The full `rectangles` list computed by `_capture_full_page_screenshot` for
a page of size `total_width × total_height` under viewport
`viewport_width × viewport_height`. -/
def rectangles (total_width total_height viewport_width viewport_height : Int) : List Tile :=
  outerTiles total_width viewport_width viewport_height total_height
    (total_height.toNat + 1) 0

/-- The `while True` loop of `_scroll_page`.  `read k` is the k-th evaluation
of `document.body.scrollHeight` (an `Except.error` is a raised script
exception, caught by `_scroll_page`'s handler, which abandons the loop).
`some k` means the loop exited after the read with index `k`; `none` means it
has not exited within `fuel` iterations — the source loop has no iteration
cap. -/
def scrollLoop (read : Nat → Except String Int) : Nat → Nat → Int → Option Nat
  | 0, _, _ => none
  | fuel + 1, k, last_height =>
    match read k with
    | .error _ => some k
    | .ok new_height =>
      if new_height = last_height then some k
      else scrollLoop read fuel (k + 1) new_height

/-- `_scroll_page`: read the initial height (index 0), then loop. -/
def scroll_page (read : Nat → Except String Int) (fuel : Nat) : Option Nat :=
  match read 0 with
  | .error _ => some 0
  | .ok h0 => scrollLoop read fuel 1 h0

/-- Browser/file-system environment of `_capture_full_page_screenshot`.  Each
`Except.error` models a raised Selenium/PIL exception. -/
structure CaptureEnv where
  offsetWidth : Except String Int
  scrollHeight : Except String Int
  innerWidth : Except String Int
  innerHeight : Except String Int
  scroll_to : Int → Int → Except String Unit
  screenshot_png : Nat → Except String Unit
  save_image : Except String Unit
  save_screenshot : Except String Unit

/-- What `_capture_full_page_screenshot` ends up writing to `output_path`. -/
inductive CaptureResult
  /-- the stitched canvas of size `width × height`, with the row-major list of
  paste origins -/
  | composite (width height : Int) (pastes : List (Int × Int))
  /-- the single ordinary viewport screenshot taken by the `except` handler -/
  | fallback
  /-- the fallback `save_screenshot` call itself raised: nothing was saved -/
  | failed
deriving DecidableEq, Repr

/-- The `window.scrollTo` calls issued while the `rectangles` list is being
generated (first loop nest of `_capture_full_page_screenshot`). -/
def genScrolls (env : CaptureEnv) : List Tile → Except String Unit
  | [] => .ok ()
  | t :: rest => do
    let _ ← env.scroll_to t.left t.top
    genScrolls env rest

/-- The capture-and-paste loop of `_capture_full_page_screenshot`: scroll to
each tile, take the k-th viewport screenshot, paste it at the tile origin. -/
def captureLoop (env : CaptureEnv) : List Tile → Nat → List (Int × Int) → Except String (List (Int × Int))
  | [], _, pastes => .ok pastes
  | t :: rest, k, pastes => do
    let _ ← env.scroll_to t.left t.top
    let _ ← env.screenshot_png k
    captureLoop env rest (k + 1) (pastes ++ [(t.left, t.top)])

/-- The body of the `try` block of `_capture_full_page_screenshot`: geometry
reads, tile generation, capture-and-paste, and the final `stitched_image.save`. -/
def captureAttempt (env : CaptureEnv) : Except String (Int × Int × List (Int × Int)) := do
  let total_width ← env.offsetWidth
  let total_height ← env.scrollHeight
  let viewport_width ← env.innerWidth
  let viewport_height ← env.innerHeight
  let rects := rectangles total_width total_height viewport_width viewport_height
  let _ ← genScrolls env rects
  let pastes ← captureLoop env rects 0 []
  let _ ← env.save_image
  pure (total_width, total_height, pastes)

/-- `_capture_full_page_screenshot`: on any exception in the `try` block, fall
back to a single ordinary `save_screenshot` (which may itself fail, leaving
nothing saved). -/
def capture_full_page_screenshot (env : CaptureEnv) : CaptureResult :=
  match captureAttempt env with
  | .ok (tw, th, pastes) => .composite tw th pastes
  | .error _ =>
    match env.save_screenshot with
    | .ok _ => .fallback
    | .error _ => .failed

/-- `take_screenshot`: compute the file name, settle-scroll, then composite.
`none` means the settle loop has not exited within `fuel` iterations (the
source loop is uncapped).  Note that a failure inside `_scroll_page` is caught
by `_scroll_page` itself, after which compositing proceeds normally. -/
def take_screenshot (screenshots_dir : String) (read : Nat → Except String Int)
    (fuel : Nat) (env : CaptureEnv) (url : String) : Option (String × CaptureResult) :=
  let screenshot_path := path_join screenshots_dir (get_safe_filename url)
  match scroll_page read fuel with
  | none => none
  | some _ => some (screenshot_path, capture_full_page_screenshot env)

/-! ## `src/crawler/crawler.py` — `WebCrawler`

The Selenium browser, the clock and the file system are an explicit
environment.  Logger calls are side-effect free and elided; callback
notifications are recorded in an event list.  (The source module also
references `setup_logger` and `json` without importing them — a module-level
name-resolution defect outside the scope of these claims; the model elides
module import resolution and the `_save_results` JSON write.) -/

/-- Result of a successful `browser.get` + `WebDriverWait(body)`: the loaded
page as the crawler observes it.  `anchors` holds the `href` attribute of each
`<a>` element (`none` when the attribute is absent). -/
structure LoadedPage where
  current_url : String
  title : String
  page_source : String
  anchors : List (Option String)
deriving DecidableEq, Repr

/-- The configuration slice read by `WebCrawler.__init__`. -/
structure CrawlerConfig where
  /-- `config['target']['url']` -/
  start_url : String
  /-- `config['target']['base_url']` -/
  base_url : String
  /-- `config['crawler']['max_depth']` (default 3) -/
  max_depth : Int
  /-- `config['crawler']['exclude_patterns']` (regular-expression sources) -/
  exclude_patterns : List String
  /-- `config['crawler']['screenshot']` (default True) -/
  take_screenshots : Bool
deriving Repr

/-- Events delivered through `self.notify` to the registered callback. -/
inductive CrawlEvent
  | start_crawl (url : String)
  | page_visit (url : String) (depth : Int)
  | link_found (url : String) (text : String)
  | screenshot_save (path : String) (url : String)
  | html_save (path : String) (url : String)
  | html_content (url : String)
  | error (url : Option String) (msg : String)
  | finish_crawl (page_count : Nat)
deriving DecidableEq, Repr

/-- The `page_info` dict appended to `self.pages` by `_process_page`. -/
structure PageRec where
  id : String
  url : String
  title : String
  depth : Int
  screenshot_path : Option String
  html_path : String
  timestamp : String
deriving DecidableEq, Repr

/-- The `page_info` dict appended to `self.pages` by the public
`process_page`. -/
structure PageInfoPub where
  url : String
  title : String
  html_path : Option String
  screenshot_path : Option String
  depth : Int
deriving DecidableEq, Repr

/-- Mutable crawler state touched by `crawl`/`_process_page`. -/
structure CrawlState where
  visited_urls : List String
  pages : List PageRec
  events : List CrawlEvent
deriving DecidableEq, Repr

/-- Mutable crawler state touched by the public `process_page`
(`self.to_visit_urls` is only ever appended to by this variant). -/
structure PubState where
  visited_urls : List String
  pages : List PageInfoPub
  to_visit_urls : List (String × Int)
deriving DecidableEq, Repr

/-- External environment of the crawler.  `Except.error` models a raised
exception with its message. -/
structure CrawlEnv where
  /-- `browser.get(u)` + `WebDriverWait(...)` + page reads, keyed by the URL
  navigated to; `.error` is a `TimeoutException` or any other raised error -/
  fetch : String → Except String LoadedPage
  /-- `browser.save_screenshot(path)`; `.ok b` means the call returned and
  `b = os.path.exists(path)` -/
  save_screenshot : String → Except String Bool
  /-- `open(path, 'w').write(html)`; `.ok b` means the write returned and
  `b = os.path.exists(path)` -/
  write_html : String → String → Except String Bool
  /-- `PageStorage.save_html(url, html)` — returns the path, or `None` after
  catching its own exception -/
  save_html : String → String → Option String
  /-- `ScreenshotTaker.take_screenshot(url)` — returns the path, or `None`
  after catching its own exception -/
  take_screenshot_result : String → Option String
  /-- truthiness of `re.search(pattern, s)` -/
  re_search : String → String → Bool
  /-- `datetime.now().isoformat()` -/
  now : String
  /-- `self.dirs['screenshots']` -/
  screenshots_dir : String
  /-- `self.dirs['html']` -/
  html_dir : String

/-- Append one notification. -/
def emit (st : CrawlState) (e : CrawlEvent) : CrawlState :=
  { st with events := st.events ++ [e] }

/-- Python `set.add`. -/
def addVisited (visited : List String) (u : String) : List String :=
  if visited.contains u then visited else visited ++ [u]

/-- `_extract_links` / `extract_links`: collect the `href` attribute of every
anchor that is truthy and starts with `"http"`. -/
def extract_links (anchors : List (Option String)) : List String :=
  anchors.foldl (fun links h =>
    match h with
    | some href =>
      if href ≠ "" ∧ "http".data.isPrefixOf href.data then links ++ [href] else links
    | none => links) []

/-- `should_visit`: normalize, reject already-visited URLs, foreign netlocs and
URLs matching an exclusion pattern. -/
def should_visit (env : CrawlEnv) (cfg : CrawlerConfig) (visited : List String)
    (url : String) : Bool :=
  let normalized_url := normalize_url url
  if visited.contains normalized_url then false
  else if (urlparse normalized_url).netloc ≠ (urlparse cfg.base_url).netloc then false
  else if cfg.exclude_patterns.any (fun p => env.re_search p normalized_url) then false
  else true

/-- `_is_excluded`: does the URL match some exclusion pattern? -/
def is_excluded (env : CrawlEnv) (cfg : CrawlerConfig) (url : String) : Bool :=
  cfg.exclude_patterns.any (fun p => env.re_search p url)

/-- Python subscription `link['url']` where `link` is a `str`: subscripting a
string with a string key raises `TypeError`. -/
def str_subscript (_link : String) (_key : String) : Except String String :=
  .error "TypeError: string indices must be integers"

/-- The first `for link in links` loop of `_process_page`: notify
`link_found` with `link['url']` / `link['text']`.  Returns the state reached
so far and the first raised exception, if any. -/
def linkFoundLoop : CrawlState → List String → CrawlState × Option String
  | st, [] => (st, none)
  | st, link :: rest =>
    match str_subscript link "url" with
    | .error e => (st, some e)
    | .ok u =>
      match str_subscript link "text" with
      | .error e => (st, some e)
      | .ok t => linkFoundLoop (emit st (.link_found u t)) rest

/-- The second `for link in links` loop of `_process_page`: recurse into
`link['url']` when it is not yet visited. -/
def visitLinksLoop (recurse : String → Int → CrawlState → CrawlState) :
    CrawlState → List String → Int → CrawlState × Option String
  | st, [], _ => (st, none)
  | st, link :: rest, depth =>
    match str_subscript link "url" with
    | .error e => (st, some e)
    | .ok next_url =>
      let st := if st.visited_urls.contains next_url then st
                else recurse next_url (depth + 1) st
      visitLinksLoop recurse st rest depth

/-- The check-and-insert prologue of `_process_page`: add the canonical URL
to `self.visited_urls` and notify `page_visit` (the caller has already ruled
out an existing claim). -/
def claimStep (st : CrawlState) (url : String) (depth : Int) : CrawlState :=
  emit { st with visited_urls := addVisited st.visited_urls url } (.page_visit url depth)

/-- The persistence stage of `_process_page` after a successful fetch: the
screenshot `try` block, the HTML preview notification, the HTML `try` block,
and the `self.pages.append(page_info)`.  `url` is already normalized. -/
def persistPage (env : CrawlEnv) (page : LoadedPage) (url : String) (depth : Int)
    (st : CrawlState) : CrawlState :=
  let title := page.title
  let page_id := get_url_hash url
  let screenshot_path := path_join env.screenshots_dir (page_id ++ ".png")
  let st :=
    match env.save_screenshot screenshot_path with
    | .error e => emit st (.error none ("screenshot save error: " ++ e))
    | .ok true => emit st (.screenshot_save screenshot_path url)
    | .ok false => emit st (.error none ("screenshot not saved: " ++ screenshot_path))
  let html_source := page.page_source
  let st := emit st (.html_content url)
  let html_path := path_join env.html_dir (page_id ++ ".html")
  let st :=
    match env.write_html html_path html_source with
    | .error e => emit st (.error none ("html save error: " ++ e))
    | .ok true => emit st (.html_save html_path url)
    | .ok false => emit st (.error none ("html not saved: " ++ html_path))
  let page_info : PageRec :=
    { id := page_id, url := url, title := title, depth := depth,
      screenshot_path := some screenshot_path, html_path := html_path,
      timestamp := env.now }
  { st with pages := st.pages ++ [page_info] }

/-- The `page_info` record `persistPage` appends. -/
def persistedRec (env : CrawlEnv) (page : LoadedPage) (url : String) (depth : Int) : PageRec :=
  { id := get_url_hash url, url := url, title := page.title, depth := depth,
    screenshot_path := some (path_join env.screenshots_dir (get_url_hash url ++ ".png")),
    html_path := path_join env.html_dir (get_url_hash url ++ ".html"),
    timestamp := env.now }

/-- The link-expansion tail of `_process_page`: stop at `max_depth`, otherwise
run the two `for link in links` loops; a raised exception becomes an `error`
event (the enclosing `try ... except`). -/
def expandLinks (cfg : CrawlerConfig) (recurse : String → Int → CrawlState → CrawlState)
    (page : LoadedPage) (url : String) (depth : Int) (st : CrawlState) : CrawlState :=
  if depth ≥ cfg.max_depth then st
  else
    let links := extract_links page.anchors
    let r1 := linkFoundLoop st links
    match r1.2 with
    | some e => emit r1.1 (.error (some url) e)
    | none =>
      let r2 := visitLinksLoop recurse r1.1 links depth
      match r2.2 with
      | some e => emit r2.1 (.error (some url) e)
      | none => r2.1

/-- `_process_page(url, depth)`.  The `Nat` fuel stands in for Python's
recursion (CPython would raise `RecursionError` near depth 1000); the theorems
below show the recursive call is never reached, so the fuel value is
irrelevant beyond being positive.  The whole body is wrapped in
`try ... except`, so the function always returns (a raised exception becomes
an `error` event). -/
def process_page_rec (env : CrawlEnv) (cfg : CrawlerConfig) :
    Nat → String → Int → CrawlState → CrawlState
  | 0, _, _, st => st
  | fuel + 1, url0, depth, st =>
    let url := normalize_url url0
    if st.visited_urls.contains url then st
    else
      let st := claimStep st url depth
      match env.fetch url with
      | .error e => emit st (.error (some url) e)
      | .ok page =>
        expandLinks cfg (process_page_rec env cfg fuel) page url depth
          (persistPage env page url depth st)

/-- The initial mutable state set up by `WebCrawler.__init__`. -/
def initState : CrawlState := ⟨[], [], []⟩

/-- `crawl()`: process the start URL at depth 1, then emit `finish_crawl` and
return `self.pages`.  (The trailing `_save_results` JSON write is an external
file-system effect, elided; see the module note above.) -/
def crawl (env : CrawlEnv) (cfg : CrawlerConfig) : CrawlState × List PageRec :=
  let start_url := cfg.start_url
  if start_url = "" then (initState, [])
  else
    let st := emit initState (.start_crawl start_url)
    let st := process_page_rec env cfg 1000 start_url 1 st
    let st := emit st (.finish_crawl st.pages.length)
    (st, st.pages)

/-- The enqueue loop at the end of the public `process_page`: append
`(link, depth+1)` to `self.to_visit_urls` for every extracted link admitted by
`should_visit`. -/
def enqueueLinks (env : CrawlEnv) (cfg : CrawlerConfig) (depth : Int) :
    PubState → List String → PubState
  | st, [] => st
  | st, link :: rest =>
    let st :=
      if should_visit env cfg st.visited_urls link then
        { st with to_visit_urls := st.to_visit_urls ++ [(link, depth + 1)] }
      else st
    enqueueLinks env cfg depth st rest

/-- The public `process_page(url, depth)` (lines 150–223): claim the
pre-navigation canonical URL, navigate with the raw URL, read back
`browser.current_url`, re-normalize it, persist, and enqueue admitted links.
On a raised navigation error the `except` clauses return `None`. -/
def process_page (env : CrawlEnv) (cfg : CrawlerConfig) (st : PubState)
    (url : String) (depth : Int) : PubState × Option PageInfoPub :=
  let normalized_url := normalize_url url
  let st := { st with visited_urls := addVisited st.visited_urls normalized_url }
  match env.fetch url with
  | .error _ => (st, none)
  | .ok page =>
    let current_url := page.current_url
    let normalized_url := normalize_url current_url
    let title := page.title
    let html_content := page.page_source
    let screenshot_path :=
      if cfg.take_screenshots then env.take_screenshot_result normalized_url else none
    let html_path := env.save_html normalized_url html_content
    let page_info : PageInfoPub :=
      { url := normalized_url, title := title, html_path := html_path,
        screenshot_path := screenshot_path, depth := depth }
    let st := { st with pages := st.pages ++ [page_info] }
    let st :=
      if depth < cfg.max_depth then
        enqueueLinks env cfg depth st (extract_links page.anchors)
      else st
    (st, some page_info)

/-! ## Concrete test fixtures

Small closed environments used to instantiate the theorems below on concrete
runs. -/

/-- Truthiness of `re.search(r'.*\.pdf$', s)`: the string ends in `".pdf"`. -/
def pdfSearch (s : String) : Bool :=
  "fdp.".data.isPrefixOf s.data.reverse

/-- A seed page at `http://h` with one absolute outlink. -/
def pageA : LoadedPage :=
  ⟨"http://h", "Seed", "<html><body><a href=x>x</a></body></html>", [some "http://h/a"]⟩

/-- A one-page site: only `http://h` loads; every save succeeds. -/
def envA : CrawlEnv :=
  { fetch := fun u => if u = "http://h" then .ok pageA else .error "unreachable host",
    save_screenshot := fun _ => .ok true,
    write_html := fun _ _ => .ok true,
    save_html := fun u _ => some (path_join "html" u),
    take_screenshot_result := fun _ => none,
    re_search := fun _p s => pdfSearch s,
    now := "2024-01-01T00:00:00",
    screenshots_dir := "shots",
    html_dir := "html" }

/-- Like `envA`, but the screenshot write raises. -/
def envABrokenShot : CrawlEnv :=
  { envA with save_screenshot := fun _ => .error "disk full" }

/-- Configuration for the one-page site. -/
def cfgA : CrawlerConfig :=
  { start_url := "http://h/", base_url := "http://h", max_depth := 3,
    exclude_patterns := ["dot-pdf-anchored"], take_screenshots := true }

/-- A `PubState` that already queued an excluded link. -/
def stQ : PubState := ⟨[], [], [("http://h/f.pdf", 5)]⟩

/-- Page reached by requesting `http://h/a` (no redirect). -/
def pageRA : LoadedPage := ⟨"http://h/a", "A", "<html>a</html>", []⟩

/-- Page reached by requesting `http://h/b`: it redirects to `http://h/a`. -/
def pageRB : LoadedPage := ⟨"http://h/a", "A", "<html>a</html>", []⟩

/-- Environment in which `http://h/b` redirects onto the already-claimed
`http://h/a`. -/
def envR : CrawlEnv :=
  { envA with
    fetch := fun u =>
      if u = "http://h/a" then .ok pageRA
      else if u = "http://h/b" then .ok pageRB
      else .error "unreachable host" }

/-- Configuration for the redirect scenario (`max_depth = 0` keeps the enqueue
loop out of the picture; screenshots disabled). -/
def cfgR : CrawlerConfig :=
  { start_url := "http://h/a", base_url := "http://h", max_depth := 0,
    exclude_patterns := [], take_screenshots := false }

/-- Initial `PubState`. -/
def pubInit : PubState := ⟨[], [], []⟩

/-- First `process_page` call of the redirect scenario. -/
def redirectStep1 : PubState := (process_page envR cfgR pubInit "http://h/a" 0).1

/-- Second `process_page` call: the request to `http://h/b` lands on the
already-claimed `http://h/a`. -/
def redirectStep2 : PubState := (process_page envR cfgR redirectStep1 "http://h/b" 0).1

/-- Scroll-height readings of a page whose reported height strictly grows on
every read. -/
def growingRead (n : Nat) : Except String Int := .ok (n : Int)

/-- Scroll-height reading that raises a script error at once. -/
def failingRead (_n : Nat) : Except String Int := .error "script error"

/-- A healthy 4×4 page under a 4×2 viewport: compositing succeeds. -/
def envC : CaptureEnv :=
  { offsetWidth := .ok 4, scrollHeight := .ok 4, innerWidth := .ok 4,
    innerHeight := .ok 2, scroll_to := fun _ _ => .ok (),
    screenshot_png := fun _ => .ok (), save_image := .ok (),
    save_screenshot := .ok () }

/-- A browser whose geometry read raises, with a working fallback shot. -/
def envF : CaptureEnv :=
  { envC with offsetWidth := .error "geometry read failed" }

/-- A throwaway record used as the `headD` default in closed statements. -/
def dummyRec : PageRec := ⟨"", "", "", 0, none, "", ""⟩

/-- The `TypeError` message raised by subscripting a `str` with a `str`. -/
def typeErrorMsg : String := "TypeError: string indices must be integers"

/-! ## Lemmas about the tiling loops -/

lemma outerTiles_stop (tw vw vh th : Int) (fuel : Nat) (i : Int) (h : ¬ i < th) :
    outerTiles tw vw vh th fuel i = [] := by
  cases fuel <;> simp [outerTiles, h]

lemma innerTiles_top (tw vw vh th i : Int) :
    ∀ fuel j t, t ∈ innerTiles tw vw vh th i fuel j →
      t.top = if i + vh > th then th - vh else i := by
  intro fuel
  induction fuel with
  | zero => intro j t ht; simp [innerTiles] at ht
  | succ n ih =>
    intro j t ht
    by_cases hj : j < tw
    · simp only [innerTiles, if_pos hj, List.mem_cons] at ht
      rcases ht with rfl | ht
      · rfl
      · exact ih _ _ ht
    · simp [innerTiles, hj] at ht

lemma innerTiles_ne_nil (tw vw vh th i : Int) (htw : 0 < tw) (fuel : Nat) :
    innerTiles tw vw vh th i (fuel + 1) 0 ≠ [] := by
  simp [innerTiles, htw]

lemma outerTiles_getLast (tw vw vh th : Int) (htw : 0 < tw) (hvh : 0 < vh) :
    ∀ fuel i, i < th → (th - i).toNat ≤ fuel →
      ∃ t, (outerTiles tw vw vh th fuel i).getLast? = some t ∧ t.top + vh = th := by
  intro fuel
  induction fuel with
  | zero => intro i hi hf; omega
  | succ n ih =>
    intro i hi hf
    have hrw : outerTiles tw vw vh th (n + 1) i =
        innerTiles tw vw vh th i (tw.toNat + 1) 0 ++ outerTiles tw vw vh th n (i + vh) := by
      simp [outerTiles, hi]
    rw [hrw]
    by_cases hnext : i + vh < th
    · obtain ⟨t, hlast, htop⟩ := ih (i + vh) hnext (by omega)
      refine ⟨t, ?_, htop⟩
      have hne : outerTiles tw vw vh th n (i + vh) ≠ [] := by
        intro hnil
        rw [hnil] at hlast
        simp at hlast
      rw [List.getLast?_append_of_ne_nil _ hne, hlast]
    · rw [outerTiles_stop tw vw vh th n (i + vh) hnext, List.append_nil]
      have hne := innerTiles_ne_nil tw vw vh th i htw tw.toNat
      rcases hsome : (innerTiles tw vw vh th i (tw.toNat + 1) 0).getLast? with _ | t
      · exact absurd (List.getLast?_eq_none_iff.mp hsome) hne
      · have hmem : t ∈ innerTiles tw vw vh th i (tw.toNat + 1) 0 := by
          obtain ⟨hn, ht⟩ := List.mem_getLast?_eq_getLast (by rw [hsome]; rfl)
          rw [ht]
          exact List.getLast_mem hn
        have htop := innerTiles_top tw vw vh th i (tw.toNat + 1) 0 t hmem
        refine ⟨t, rfl, ?_⟩
        by_cases hover : i + vh > th
        · rw [htop, if_pos hover]; omega
        · rw [htop, if_neg hover]; omega

/-! ## Claim theorems for the screenshot compositor -/

/-- C3 (code bug): the horizontal origin of the last tile column is not
clamped.  For a 10×8 page under a 4×8 viewport the generated tiles are
`(0,0)`, `(4,0)`, `(8,0)`: the vertical origin is clamped, but the last tile
starts at `x = 8` and its far edge `8 + 4 = 12` exceeds the page width 10,
contradicting the claim that origins are clamped on both axes. -/
theorem tiling_not_clamped_horizontally :
    rectangles 10 8 4 8 =
      [⟨0, 0, 4, 8⟩, ⟨4, 0, 4, 8⟩, ⟨8, 0, 4, 8⟩] ∧ (8 : Int) + 4 > 10 := by
  decide

/-- C4: whenever the page dimensions and viewport dimensions are positive and
the total height is not a multiple of the viewport height, the origin of the
last generated tile row satisfies `top + viewport_height = total_height`
exactly (the clamp `top_height = total_height - viewport_height` fires on the
last row). -/
theorem last_tile_row_flush (tw th vw vh : Int) (htw : 0 < tw) (hth : 0 < th)
    (hvw : 0 < vw) (hvh : 0 < vh) (hnm : ¬ vh ∣ th) :
    ∃ t, (rectangles tw th vw vh).getLast? = some t ∧ t.top + vh = th := by
  unfold rectangles
  exact outerTiles_getLast tw vw vh th htw hvh (th.toNat + 1) 0 hth (by omega)

/-- Witness for C4 on a 5×10 page under a 5×4 viewport. -/
theorem last_tile_row_flush_witness :
    ∃ t, (rectangles 5 10 5 4).getLast? = some t ∧ t.top + 4 = 10 :=
  last_tile_row_flush 5 10 5 4 (by omega) (by omega) (by omega) (by omega) (by omega)

/-- C9 (code bug): the settle-scroll loop of `_scroll_page` has no iteration
cap: on a page whose reported scroll height strictly grows on every read, the
`while True` loop never exits, whatever bound is imposed from outside. -/
theorem scroll_settle_never_terminates :
    ∀ fuel, scroll_page growingRead fuel = none := by
  have key : ∀ fuel k, scrollLoop growingRead fuel (k + 1) (k : Int) = none := by
    intro fuel
    induction fuel with
    | zero => intro k; rfl
    | succ n ih =>
      intro k
      have hne : ¬ (((k + 1 : Nat) : Int) = (k : Int)) := by
        push_cast
        omega
      simp only [scrollLoop, growingRead, if_neg hne]
      have := ih (k + 1)
      push_cast at this ⊢
      exact this
  intro fuel
  have := key fuel 0
  simpa [scroll_page, growingRead, scrollLoop] using this

deriving instance DecidableEq for Except

/-! ## Claim theorems for `normalize_url` -/

/-- C7 (code bug): `normalize_url` is not idempotent.  The trailing-slash
rule strips only the last character of the re-assembled URL, so
`"https://h/p//"` normalizes to `"https://h/p/"`, and a second application
strips again, giving `"https://h/p"`. -/
theorem normalize_url_not_idempotent :
    normalize_url "https://h/p//" = "https://h/p/" ∧
    normalize_url (normalize_url "https://h/p//") = "https://h/p" ∧
    normalize_url (normalize_url "https://h/p//") ≠ normalize_url "https://h/p//" := by
  decide

/-- C8 (code bug): query-parameter order is normalized away, but a trailing
slash on the path is not when a query is present: the slash-stripping step
looks only at the last character of the whole URL, which here is the final
query character.  So the third canonical form differs from the first two. -/
theorem normalize_url_trailing_slash_with_query :
    normalize_url "https://h/p?b=2&a=1" = "https://h/p?a=1&b=2" ∧
    normalize_url "https://h/p?a=1&b=2" = "https://h/p?a=1&b=2" ∧
    normalize_url "https://h/p/?a=1&b=2" = "https://h/p/?a=1&b=2" ∧
    normalize_url "https://h/p/?a=1&b=2" ≠ normalize_url "https://h/p?a=1&b=2" := by
  decide

/-! ## Counterexamples for the corrected claims -/

/-- Counterexample to C10 as stated: a failure in the settle step (the first
scroll-height read raises) does not trigger the single-viewport fallback —
`_scroll_page` catches its own exception and full-page compositing proceeds,
producing a two-tile composite. -/
theorem settle_failure_still_composites :
    failingRead 0 = .error "script error" ∧
    (take_screenshot "shots" failingRead 10 envC "http://h/x").map Prod.snd =
      some (CaptureResult.composite 4 4 [(0, 0), (0, 2)]) ∧
    some (CaptureResult.composite 4 4 [(0, 0), (0, 2)]) ≠ some CaptureResult.fallback := by
  decide

/-- Counterexample to C6 as stated: requesting `http://h/b` redirects onto the
already-claimed `http://h/a`; `process_page` re-canonicalizes the post-redirect
URL but never re-checks the visited ledger, so a second record for the same
canonical URL is persisted. -/
theorem redirect_duplicate_record :
    redirectStep2.pages.map PageInfoPub.url = ["http://h/a", "http://h/a"] ∧
    ¬ (redirectStep2.pages.map PageInfoPub.url).Nodup := by
  decide

/-! ## Lemmas about the crawl loop -/

lemma emit_visited (st : CrawlState) (e : CrawlEvent) :
    (emit st e).visited_urls = st.visited_urls := rfl

lemma emit_pages (st : CrawlState) (e : CrawlEvent) : (emit st e).pages = st.pages := rfl

lemma emit_events (st : CrawlState) (e : CrawlEvent) :
    (emit st e).events = st.events ++ [e] := rfl

lemma addVisited_of_not_contains (visited : List String) (u : String)
    (h : visited.contains u = false) : addVisited visited u = visited ++ [u] := by
  have h' : u ∉ visited := by simpa using h
  simp [addVisited, h']

lemma claimStep_visited (st : CrawlState) (url : String) (depth : Int) :
    (claimStep st url depth).visited_urls = addVisited st.visited_urls url := rfl

lemma claimStep_pages (st : CrawlState) (url : String) (depth : Int) :
    (claimStep st url depth).pages = st.pages := rfl

lemma linkFoundLoop_nil (st : CrawlState) : linkFoundLoop st [] = (st, none) := rfl

lemma linkFoundLoop_cons (st : CrawlState) (l : String) (rest : List String) :
    linkFoundLoop st (l :: rest) = (st, some typeErrorMsg) := rfl

lemma visitLinksLoop_nil (recurse : String → Int → CrawlState → CrawlState)
    (st : CrawlState) (depth : Int) : visitLinksLoop recurse st [] depth = (st, none) := rfl

lemma persistPage_visited (env : CrawlEnv) (page : LoadedPage) (url : String) (depth : Int)
    (st : CrawlState) : (persistPage env page url depth st).visited_urls = st.visited_urls := by
  simp only [persistPage]
  split <;> split <;> rfl

lemma persistPage_pages (env : CrawlEnv) (page : LoadedPage) (url : String) (depth : Int)
    (st : CrawlState) :
    (persistPage env page url depth st).pages = st.pages ++ [persistedRec env page url depth] := by
  simp only [persistPage, persistedRec]
  split <;> split <;> rfl

lemma expandLinks_ge (cfg : CrawlerConfig) (recurse : String → Int → CrawlState → CrawlState)
    (page : LoadedPage) (url : String) (depth : Int) (st : CrawlState)
    (hd : depth ≥ cfg.max_depth) : expandLinks cfg recurse page url depth st = st := by
  simp [expandLinks, hd]

lemma expandLinks_no_links (cfg : CrawlerConfig) (recurse : String → Int → CrawlState → CrawlState)
    (page : LoadedPage) (url : String) (depth : Int) (st : CrawlState)
    (hd : ¬ depth ≥ cfg.max_depth) (hl : extract_links page.anchors = []) :
    expandLinks cfg recurse page url depth st = st := by
  simp [expandLinks, hd, hl, linkFoundLoop_nil, visitLinksLoop_nil]

lemma expandLinks_links (cfg : CrawlerConfig) (recurse : String → Int → CrawlState → CrawlState)
    (page : LoadedPage) (url : String) (depth : Int) (st : CrawlState)
    (hd : ¬ depth ≥ cfg.max_depth) (l : String) (ls : List String)
    (hl : extract_links page.anchors = l :: ls) :
    expandLinks cfg recurse page url depth st = emit st (.error (some url) typeErrorMsg) := by
  simp [expandLinks, hd, hl, linkFoundLoop_cons]

lemma expandLinks_visited (cfg : CrawlerConfig) (recurse : String → Int → CrawlState → CrawlState)
    (page : LoadedPage) (url : String) (depth : Int) (st : CrawlState) :
    (expandLinks cfg recurse page url depth st).visited_urls = st.visited_urls := by
  by_cases hd : depth ≥ cfg.max_depth
  · rw [expandLinks_ge cfg recurse page url depth st hd]
  · rcases hl : extract_links page.anchors with _ | ⟨l, ls⟩
    · rw [expandLinks_no_links cfg recurse page url depth st hd hl]
    · rw [expandLinks_links cfg recurse page url depth st hd l ls hl, emit_visited]

lemma expandLinks_pages (cfg : CrawlerConfig) (recurse : String → Int → CrawlState → CrawlState)
    (page : LoadedPage) (url : String) (depth : Int) (st : CrawlState) :
    (expandLinks cfg recurse page url depth st).pages = st.pages := by
  by_cases hd : depth ≥ cfg.max_depth
  · rw [expandLinks_ge cfg recurse page url depth st hd]
  · rcases hl : extract_links page.anchors with _ | ⟨l, ls⟩
    · rw [expandLinks_no_links cfg recurse page url depth st hd hl]
    · rw [expandLinks_links cfg recurse page url depth st hd l ls hl, emit_pages]

lemma ppr_contains (env : CrawlEnv) (cfg : CrawlerConfig) (n : Nat) (url : String)
    (depth : Int) (st : CrawlState)
    (hc : st.visited_urls.contains (normalize_url url) = true) :
    process_page_rec env cfg (n + 1) url depth st = st := by
  have hm : normalize_url url ∈ st.visited_urls := by simpa using hc
  simp [process_page_rec, hm]

lemma ppr_succ_eq (env : CrawlEnv) (cfg : CrawlerConfig) (n : Nat) (url : String)
    (depth : Int) (st : CrawlState)
    (hc : st.visited_urls.contains (normalize_url url) = false) :
    process_page_rec env cfg (n + 1) url depth st =
      match env.fetch (normalize_url url) with
      | .error e =>
          emit (claimStep st (normalize_url url) depth) (.error (some (normalize_url url)) e)
      | .ok page =>
          expandLinks cfg (process_page_rec env cfg n) page (normalize_url url) depth
            (persistPage env page (normalize_url url) depth
              (claimStep st (normalize_url url) depth)) := by
  have hm : normalize_url url ∉ st.visited_urls := by simpa using hc
  simp [process_page_rec, hm]

lemma ppr_fetch_error (env : CrawlEnv) (cfg : CrawlerConfig) (n : Nat) (url : String)
    (depth : Int) (st : CrawlState) (e : String)
    (hc : st.visited_urls.contains (normalize_url url) = false)
    (hf : env.fetch (normalize_url url) = .error e) :
    process_page_rec env cfg (n + 1) url depth st =
      emit (claimStep st (normalize_url url) depth) (.error (some (normalize_url url)) e) := by
  rw [ppr_succ_eq env cfg n url depth st hc, hf]

lemma ppr_fetch_ok (env : CrawlEnv) (cfg : CrawlerConfig) (n : Nat) (url : String)
    (depth : Int) (st : CrawlState) (page : LoadedPage)
    (hc : st.visited_urls.contains (normalize_url url) = false)
    (hf : env.fetch (normalize_url url) = .ok page) :
    process_page_rec env cfg (n + 1) url depth st =
      expandLinks cfg (process_page_rec env cfg n) page (normalize_url url) depth
        (persistPage env page (normalize_url url) depth
          (claimStep st (normalize_url url) depth)) := by
  rw [ppr_succ_eq env cfg n url depth st hc, hf]

set_option maxHeartbeats 2000000 in
/-- Shape of one `_process_page` call: either the state is untouched (already
claimed, or fuel 0), or the canonical URL was freshly claimed and at most one
record — carrying that canonical URL and depth — was appended. -/
lemma ppr_shape (env : CrawlEnv) (cfg : CrawlerConfig) (fuel : Nat) (url : String)
    (depth : Int) (st : CrawlState) :
    process_page_rec env cfg fuel url depth st = st ∨
    (st.visited_urls.contains (normalize_url url) = false ∧
     (process_page_rec env cfg fuel url depth st).visited_urls =
       st.visited_urls ++ [normalize_url url] ∧
     ((process_page_rec env cfg fuel url depth st).pages = st.pages ∨
      ∃ rec : PageRec, (process_page_rec env cfg fuel url depth st).pages = st.pages ++ [rec] ∧
        rec.url = normalize_url url ∧ rec.depth = depth)) := by
  cases fuel with
  | zero => exact Or.inl rfl
  | succ n =>
    by_cases hc : st.visited_urls.contains (normalize_url url) = true
    · exact Or.inl (ppr_contains env cfg n url depth st hc)
    · have hc' : st.visited_urls.contains (normalize_url url) = false := by
        simpa using hc
      right
      refine ⟨hc', ?_, ?_⟩
      · rcases hf : env.fetch (normalize_url url) with e | page
        · rw [ppr_fetch_error env cfg n url depth st e hc' hf, emit_visited,
            claimStep_visited, addVisited_of_not_contains _ _ hc']
        · rw [ppr_fetch_ok env cfg n url depth st page hc' hf, expandLinks_visited,
            persistPage_visited, claimStep_visited, addVisited_of_not_contains _ _ hc']
      · rcases hf : env.fetch (normalize_url url) with e | page
        · left
          rw [ppr_fetch_error env cfg n url depth st e hc' hf, emit_pages, claimStep_pages]
        · right
          rw [ppr_fetch_ok env cfg n url depth st page hc' hf, expandLinks_pages,
            persistPage_pages, claimStep_pages]
          exact ⟨persistedRec env page (normalize_url url) depth, rfl, rfl, rfl⟩

lemma crawl_pages_empty_start (env : CrawlEnv) (cfg : CrawlerConfig)
    (h : cfg.start_url = "") : (crawl env cfg).2 = [] := by
  unfold crawl
  rw [if_pos h]

lemma crawl_pages (env : CrawlEnv) (cfg : CrawlerConfig) (h : ¬ cfg.start_url = "") :
    (crawl env cfg).2 =
      (process_page_rec env cfg 1000 cfg.start_url 1
        (emit initState (.start_crawl cfg.start_url))).pages := by
  unfold crawl
  rw [if_neg h]
  rfl

lemma crawl_state (env : CrawlEnv) (cfg : CrawlerConfig) (h : ¬ cfg.start_url = "") :
    (crawl env cfg).1 =
      emit (process_page_rec env cfg 1000 cfg.start_url 1
        (emit initState (.start_crawl cfg.start_url)))
        (.finish_crawl (process_page_rec env cfg 1000 cfg.start_url 1
          (emit initState (.start_crawl cfg.start_url))).pages.length) := by
  unfold crawl
  rw [if_neg h]

lemma enqueueLinks_pages (env : CrawlEnv) (cfg : CrawlerConfig) (depth : Int) :
    ∀ (ls : List String) (st : PubState),
      (enqueueLinks env cfg depth st ls).pages = st.pages := by
  intro ls
  induction ls with
  | nil => intro st; rfl
  | cons l ls ih =>
    intro st
    rw [show enqueueLinks env cfg depth st (l :: ls) =
        enqueueLinks env cfg depth
          (if should_visit env cfg st.visited_urls l then
            { st with to_visit_urls := st.to_visit_urls ++ [(l, depth + 1)] }
          else st) ls from rfl, ih]
    by_cases hv : should_visit env cfg st.visited_urls l = true
    · simp [hv]
    · simp [hv]

lemma enqueueLinks_mem_of_excluded (env : CrawlEnv) (cfg : CrawlerConfig) (depth : Int)
    (link : String) (d : Int)
    (hsv : ∀ v : List String, should_visit env cfg v link = false) :
    ∀ (ls : List String) (st : PubState),
      (link, d) ∈ (enqueueLinks env cfg depth st ls).to_visit_urls →
      (link, d) ∈ st.to_visit_urls := by
  intro ls
  induction ls with
  | nil => intro st h; exact h
  | cons l ls ih =>
    intro st h
    rw [show enqueueLinks env cfg depth st (l :: ls) =
        enqueueLinks env cfg depth
          (if should_visit env cfg st.visited_urls l then
            { st with to_visit_urls := st.to_visit_urls ++ [(l, depth + 1)] }
          else st) ls from rfl] at h
    have h' := ih _ h
    by_cases hv : should_visit env cfg st.visited_urls l = true
    · rw [if_pos hv] at h'
      simp only [List.mem_append, List.mem_singleton] at h'
      rcases h' with h' | h'
      · exact h'
      · exfalso
        have hl : l = link := (congrArg Prod.fst h').symm
        rw [hl, hsv st.visited_urls] at hv
        exact Bool.false_ne_true hv
    · rw [if_neg hv] at h'
      exact h'

/-- `should_visit` rejects any URL whose canonical form matches one of the
configured exclusion patterns, whatever the visited set is. -/
lemma should_visit_excluded (env : CrawlEnv) (cfg : CrawlerConfig)
    (visited : List String) (url : String)
    (hex : ∃ p ∈ cfg.exclude_patterns, env.re_search p (normalize_url url) = true) :
    should_visit env cfg visited url = false := by
  obtain ⟨p, hp, hr⟩ := hex
  have hC : cfg.exclude_patterns.any (fun q => env.re_search q (normalize_url url)) = true :=
    List.any_eq_true.mpr ⟨p, hp, hr⟩
  simp only [should_visit, hC]
  split
  · rfl
  · split
    · rfl
    · rfl

/-- Every record produced by `crawl` carries the canonical form of the seed
URL: the only `_process_page` call that ever appends a record is the seed
call. -/
lemma crawl_rec_url (env : CrawlEnv) (cfg : CrawlerConfig) (rec : PageRec)
    (hmem : rec ∈ (crawl env cfg).2) : rec.url = normalize_url cfg.start_url := by
  by_cases h : cfg.start_url = ""
  · rw [crawl_pages_empty_start env cfg h] at hmem
    simp at hmem
  · rw [crawl_pages env cfg h] at hmem
    rcases ppr_shape env cfg 1000 cfg.start_url 1
        (emit initState (.start_crawl cfg.start_url)) with he | ⟨_, _, hp | ⟨rec', hp, hu, _⟩⟩
    · rw [he] at hmem
      simp [emit_pages, initState] at hmem
    · rw [hp] at hmem
      simp [emit_pages, initState] at hmem
    · rw [hp] at hmem
      simp [emit_pages, initState] at hmem
      rw [hmem]
      exact hu

/-- The public `process_page` never enqueues a link whose canonical form
matches an exclusion pattern: the only append to `to_visit_urls` is guarded by
`should_visit`. -/
lemma process_page_excluded_not_enqueued (env : CrawlEnv) (cfg : CrawlerConfig)
    (st : PubState) (url : String) (depth : Int) (link : String) (d : Int)
    (hex : ∃ p ∈ cfg.exclude_patterns, env.re_search p (normalize_url link) = true)
    (hmem : (link, d) ∈ (process_page env cfg st url depth).1.to_visit_urls) :
    (link, d) ∈ st.to_visit_urls := by
  have hsv : ∀ v : List String, should_visit env cfg v link = false := fun v =>
    should_visit_excluded env cfg v link hex
  rcases hf : env.fetch url with e | page
  · simp only [process_page, hf] at hmem
    exact hmem
  · simp only [process_page, hf] at hmem
    by_cases hd : depth < cfg.max_depth
    · rw [if_pos hd] at hmem
      have h2 := enqueueLinks_mem_of_excluded env cfg depth link d hsv _ _ hmem
      exact h2
    · rw [if_neg hd] at hmem
      exact hmem

/-! ## Claim theorems for the crawler -/

/-- C1: in every run of `WebCrawler.crawl` no canonical URL appears twice in
the resulting page list, and the visited-set check-and-insert admits only the
first `_process_page` call for a given canonical URL (a later call returns
with the state untouched). -/
theorem crawl_no_duplicate_canonical_urls :
    (∀ env cfg, (((crawl env cfg).2).map PageRec.url).Nodup) ∧
    (∀ env cfg (fuel : Nat) url (depth : Int) st,
      st.visited_urls.contains (normalize_url url) = true →
      process_page_rec env cfg (fuel + 1) url depth st = st) := by
  constructor
  · intro env cfg
    by_cases h : cfg.start_url = ""
    · rw [crawl_pages_empty_start env cfg h]
      simp
    · rw [crawl_pages env cfg h]
      rcases ppr_shape env cfg 1000 cfg.start_url 1
          (emit initState (.start_crawl cfg.start_url)) with he | ⟨_, _, hp | ⟨rec, hp, _, _⟩⟩
      · rw [he]
        simp [emit_pages, initState]
      · rw [hp]
        simp [emit_pages, initState]
      · rw [hp]
        simp [emit_pages, initState]
  · intro env cfg fuel url depth st hc
    exact ppr_contains env cfg fuel url depth st hc

/-- Witness for C1 on the concrete one-page site, together with a second call
on an already-claimed canonical URL returning the state untouched. -/
theorem crawl_no_duplicate_canonical_urls_witness :
    (((crawl envA cfgA).2).map PageRec.url).Nodup ∧
    process_page_rec envA cfgA 1 "http://h/" 1 ⟨["http://h"], [], []⟩ =
      ⟨["http://h"], [], []⟩ :=
  ⟨crawl_no_duplicate_canonical_urls.1 envA cfgA,
   crawl_no_duplicate_canonical_urls.2 envA cfgA 0 "http://h/" 1 ⟨["http://h"], [], []⟩
     (by decide)⟩

/-- C2: link expansion in `_process_page` dies on its first link — the
extracted links are plain strings, and `link['url']` raises `TypeError` — so
the exception is caught, an `error` event is emitted, no child page is ever
visited, and `crawl` returns at most one record (the seed page), whatever
`max_depth` is. -/
theorem crawl_visits_only_seed :
    (∀ env cfg, ((crawl env cfg).2).length ≤ 1) ∧
    (∀ env cfg page (l : String) (ls : List String),
      ¬ cfg.start_url = "" →
      env.fetch (normalize_url cfg.start_url) = .ok page →
      extract_links page.anchors = l :: ls →
      (1 : Int) < cfg.max_depth →
      ((crawl env cfg).2).length = 1 ∧
      CrawlEvent.error (some (normalize_url cfg.start_url)) typeErrorMsg ∈
        (crawl env cfg).1.events ∧
      (crawl env cfg).1.visited_urls = [normalize_url cfg.start_url]) := by
  constructor
  · intro env cfg
    by_cases h : cfg.start_url = ""
    · rw [crawl_pages_empty_start env cfg h]
      simp
    · rw [crawl_pages env cfg h]
      rcases ppr_shape env cfg 1000 cfg.start_url 1
          (emit initState (.start_crawl cfg.start_url)) with he | ⟨_, _, hp | ⟨rec, hp, _, _⟩⟩
      · rw [he]
        simp [emit_pages, initState]
      · rw [hp]
        simp [emit_pages, initState]
      · rw [hp]
        simp [emit_pages, initState]
  · intro env cfg page l ls hne hf hl hdep
    have hc : (emit initState (.start_crawl cfg.start_url)).visited_urls.contains
        (normalize_url cfg.start_url) = false := rfl
    have hstep : process_page_rec env cfg 1000 cfg.start_url 1
        (emit initState (.start_crawl cfg.start_url)) =
      emit (persistPage env page (normalize_url cfg.start_url) 1
          (claimStep (emit initState (.start_crawl cfg.start_url))
            (normalize_url cfg.start_url) 1))
        (.error (some (normalize_url cfg.start_url)) typeErrorMsg) := by
      have h1 := ppr_fetch_ok env cfg 999 cfg.start_url 1
          (emit initState (.start_crawl cfg.start_url)) page hc hf
      have hd : ¬ (1 : Int) ≥ cfg.max_depth := by omega
      rw [show (999 : Nat) + 1 = 1000 from rfl] at h1
      rw [h1]
      exact expandLinks_links cfg _ page (normalize_url cfg.start_url) 1 _ hd l ls hl
    refine ⟨?_, ?_, ?_⟩
    · rw [crawl_pages env cfg hne, hstep, emit_pages, persistPage_pages, claimStep_pages]
      rfl
    · rw [crawl_state env cfg hne, emit_events, hstep, emit_events]
      exact List.mem_append_left _ (List.mem_append_right _ (List.mem_singleton_self _))
    · rw [crawl_state env cfg hne, emit_visited, hstep, emit_visited, persistPage_visited,
        claimStep_visited]
      rfl

/-- Witness for C2 on the concrete one-page site: the seed loads, one link is
extracted, and the run ends with exactly one record, a `TypeError` error
event, and only the seed in the visited set. -/
theorem crawl_visits_only_seed_witness :
    ((crawl envA cfgA).2).length ≤ 1 ∧
    (((crawl envA cfgA).2).length = 1 ∧
      CrawlEvent.error (some (normalize_url cfgA.start_url)) typeErrorMsg ∈
        (crawl envA cfgA).1.events ∧
      (crawl envA cfgA).1.visited_urls = [normalize_url cfgA.start_url]) :=
  ⟨crawl_visits_only_seed.1 envA cfgA,
   crawl_visits_only_seed.2 envA cfgA pageA "http://h/a" [] (by decide) (by decide)
     (by decide) (by decide)⟩

/-- C5: a canonical URL matching a configured exclusion pattern is rejected by
`should_visit` (hence never enqueued onto `to_visit_urls` by the public
`process_page`), and link expansion in a `crawl` run never yields any record
other than the seed's — in particular none for an excluded URL. -/
theorem excluded_urls_never_visited :
    (∀ env cfg (visited : List String) url,
      (∃ p ∈ cfg.exclude_patterns, env.re_search p (normalize_url url) = true) →
      should_visit env cfg visited url = false) ∧
    (∀ env cfg rec, rec ∈ (crawl env cfg).2 → rec.url = normalize_url cfg.start_url) ∧
    (∀ env cfg st url (depth : Int) link (d : Int),
      (∃ p ∈ cfg.exclude_patterns, env.re_search p (normalize_url link) = true) →
      (link, d) ∈ (process_page env cfg st url depth).1.to_visit_urls →
      (link, d) ∈ st.to_visit_urls) :=
  ⟨fun env cfg visited url hex => should_visit_excluded env cfg visited url hex,
   fun env cfg rec hmem => crawl_rec_url env cfg rec hmem,
   fun env cfg st url depth link d hex hmem =>
     process_page_excluded_not_enqueued env cfg st url depth link d hex hmem⟩

/-- Witness for C5: the pattern semantics of `.*\.pdf$` reject
`http://h/f.pdf`; the concrete crawl's only record is the seed's; and a
pre-queued excluded pair survives a `process_page` call only because it was
already queued. -/
theorem excluded_urls_never_visited_witness :
    should_visit envA cfgA [] "http://h/f.pdf" = false ∧
    (((crawl envA cfgA).2).headD dummyRec).url = normalize_url cfgA.start_url ∧
    ("http://h/f.pdf", (5 : Int)) ∈ stQ.to_visit_urls :=
  ⟨excluded_urls_never_visited.1 envA cfgA [] "http://h/f.pdf"
     ⟨"dot-pdf-anchored", by decide, by decide⟩,
   excluded_urls_never_visited.2.1 envA cfgA (((crawl envA cfgA).2).headD dummyRec)
     (by decide),
   excluded_urls_never_visited.2.2 envA cfgA stQ "http://h/zzz" 0 "http://h/f.pdf" 5
     ⟨"dot-pdf-anchored", by decide, by decide⟩ (by decide)⟩

/-- C6 (amended): after navigating, the public `process_page` reads back the
effective post-redirect URL and re-canonicalizes it, but it never re-checks
the visited ledger against that canonical form: whenever the fetch succeeds —
in particular when the post-redirect canonical URL is already claimed — a
record carrying the re-canonicalized URL is appended unconditionally, so a
redirect landing on an already-claimed canonical URL produces a second
persisted record. -/
theorem process_page_no_ledger_recheck :
    ∀ env cfg st url (depth : Int) page,
      env.fetch url = .ok page →
      normalize_url page.current_url ∈ st.visited_urls →
      (process_page env cfg st url depth).1.pages =
        st.pages ++ [(⟨normalize_url page.current_url, page.title,
          env.save_html (normalize_url page.current_url) page.page_source,
          (if cfg.take_screenshots then
            env.take_screenshot_result (normalize_url page.current_url)
          else none), depth⟩ : PageInfoPub)] := by
  intro env cfg st url depth page hf _hclaimed
  simp only [process_page, hf]
  by_cases hd : depth < cfg.max_depth
  · rw [if_pos hd, enqueueLinks_pages env cfg depth]
  · rw [if_neg hd]

/-- Witness for the amended C6: the second call of the redirect scenario
appends a record for the already-claimed `http://h/a`. -/
theorem process_page_no_ledger_recheck_witness :
    (process_page envR cfgR redirectStep1 "http://h/b" 0).1.pages =
      redirectStep1.pages ++ [(⟨normalize_url pageRB.current_url, pageRB.title,
        envR.save_html (normalize_url pageRB.current_url) pageRB.page_source,
        (if cfgR.take_screenshots then
          envR.take_screenshot_result (normalize_url pageRB.current_url)
        else none), 0⟩ : PageInfoPub)] :=
  process_page_no_ledger_recheck envR cfgR redirectStep1 "http://h/b" 0 pageRB
    (by decide) (by decide)

set_option maxHeartbeats 2000000 in
/-- C10 (amended): a raised error in the geometry reads, the tile loops or the
canvas save makes `_capture_full_page_screenshot` fall back to a single
ordinary viewport screenshot (and only a failing fallback leaves nothing
saved); a settle failure, by contrast, is swallowed inside `_scroll_page`
(see the counterexample).  In `_process_page`, a raised screenshot error never
prevents the page record: the record is still appended. -/
theorem capture_failure_falls_back_and_keeps_record :
    (∀ (env : CaptureEnv) (e : String), captureAttempt env = .error e →
      ((capture_full_page_screenshot env = .fallback ∨
        capture_full_page_screenshot env = .failed) ∧
       (env.save_screenshot = .ok () → capture_full_page_screenshot env = .fallback))) ∧
    (∀ env cfg (fuel : Nat) url (depth : Int) st page e,
      st.visited_urls.contains (normalize_url url) = false →
      env.fetch (normalize_url url) = .ok page →
      env.save_screenshot
        (path_join env.screenshots_dir (get_url_hash (normalize_url url) ++ ".png")) =
        .error e →
      ∃ rec ∈ (process_page_rec env cfg (fuel + 1) url depth st).pages,
        rec.url = normalize_url url ∧ rec.depth = depth) := by
  constructor
  · intro env e h
    have hred : capture_full_page_screenshot env =
        (match env.save_screenshot with
         | .ok _ => CaptureResult.fallback
         | .error _ => CaptureResult.failed) := by
      unfold capture_full_page_screenshot
      rw [h]
    constructor
    · rw [hred]
      rcases hs : env.save_screenshot with e' | u
      · right
        rfl
      · left
        rfl
    · intro hok
      rw [hred, hok]
  · intro env cfg fuel url depth st page e hc hf _hshot
    rw [ppr_fetch_ok env cfg fuel url depth st page hc hf, expandLinks_pages,
      persistPage_pages, claimStep_pages]
    exact ⟨persistedRec env page (normalize_url url) depth,
      List.mem_append_right _ (List.mem_singleton_self _), rfl, rfl⟩

/-- Witness for the amended C10: a failing geometry read with a healthy
fallback yields the single-viewport fallback, and a crawl step whose
screenshot write raises still appends the seed's record. -/
theorem capture_failure_falls_back_and_keeps_record_witness :
    ((capture_full_page_screenshot envF = .fallback ∨
      capture_full_page_screenshot envF = .failed) ∧
     (envF.save_screenshot = .ok () → capture_full_page_screenshot envF = .fallback)) ∧
    ∃ rec ∈ (process_page_rec envABrokenShot cfgA 1 "http://h/" 1 initState).pages,
      rec.url = normalize_url "http://h/" ∧ rec.depth = 1 :=
  ⟨capture_failure_falls_back_and_keeps_record.1 envF "geometry read failed" (by decide),
   capture_failure_falls_back_and_keeps_record.2 envABrokenShot cfgA 0 "http://h/" 1
     initState pageA "disk full" (by decide) (by decide) (by decide)⟩
